import Mathlib

/-!
Verification of the ink-v1 frontend job-orchestration client.

The definitions below are a shallow embedding of `src/frontend/src/App.tsx`
and `src/frontend/src/api.ts`.  JavaScript numbers that only ever hold
integer values (progress counters, delays, timestamps in milliseconds,
HTTP status codes) are modelled as `Int`/`Nat`; `Math.round` on the
non-negative rationals that arise is `jsRound`.  Network effects are
modelled by passing the server's responses in as explicit arguments: a
poll session receives the sequence of `getJobStatus` results (paired with
the value `Date.now()` returns on that iteration), and each transport
function receives the `fetch` response it observes.  The unbounded
`while (true)` loop is given fuel; fuel exhaustion is reported as the
distinguished outcome `PollOutcome.outOfFuel`, which corresponds to the
real loop still running (none of the theorems below rely on it).
-/

namespace InkV1

/-- JavaScript `Math.round (n / d)` for an integer numerator `n` and a
positive integer denominator `d`: round half toward positive infinity,
i.e. `⌊n / d + 1 / 2⌋ = ⌊(2 * n + d) / (2 * d)⌋`. -/
def jsRound (n d : Int) : Int := (2 * n + d) / (2 * d)

/-- JavaScript `m || fallback` applied to a nullable string `m`: the
fallback is used when `m` is `null` or the empty string (both falsy). -/
def jsOrElse (m : Option String) (fallback : String) : String :=
  match m with
  | none => fallback
  | some s => if s = "" then fallback else s

/-- The status snapshot returned by `GET /api/v1/jobs/{job_id}`
(interface `JobStatusResponse` in `api.ts`, plus the progress fields
`App.tsx` reads).  Fields the claims never touch (timings, QA counters,
paths) are omitted; they are opaque pass-through display data. -/
structure JobStatusResponse where
  job_id : String
  status : String
  error_message : Option String
  num_pages : Option Int
  progress_current : Option Int
  progress_total : Option Int
  progress_stage : Option String
  deriving Repr, DecidableEq

/-- Response body of `POST /api/v1/jobs` (interface `CreateJobResponse`). -/
structure CreateJobResponse where
  job_id : String
  status : String
  type : String
  output_format : String
  deriving Repr, DecidableEq

/-- The pair `{text, percent}` produced by the `progressInfo` memo. -/
structure ProgressView where
  text : String
  percent : Int
  deriving Repr, DecidableEq

/-- The `progressInfo` memo of `App.tsx` (lines 57-91): `null` when there
is no snapshot or no usable `progress_total`; otherwise the clamped
percentage and the stage-selected label.  The TS `switch` on
`progress_stage` is an equality chain, written here as nested `if`s. -/
def progressInfo (jobStatus : Option JobStatusResponse) : Option ProgressView :=
  match jobStatus with
  | none => none
  | some js =>
    match js.progress_total with
    | none => none
    | some total =>
      if total ≤ 0 then none
      else
        let current := min (js.progress_current.getD 0) total
        let percent := max 0 (min 100 (jsRound (100 * current) total))
        if js.progress_stage = some "import" then
          some ⟨s!"Importando {current} / {total}", percent⟩
        else if js.progress_stage = some "ocr" then
          some ⟨s!"OCR {current} / {total}", percent⟩
        else if js.progress_stage = some "translate" then
          some ⟨s!"Traduciendo {current} / {total}", percent⟩
        else if js.progress_stage = some "render" then
          some ⟨s!"Renderizando {current} / {total}", percent⟩
        else if js.progress_stage = some "export" then
          some ⟨"Exportando…", 100⟩
        else if js.progress_stage = some "completed" then
          some ⟨s!"Completado {total} / {total}", 100⟩
        else
          some ⟨s!"Procesando {current} / {total}", percent⟩

/-- One network request issued by the client, as seen by the server. -/
inductive Request where
  | submit
  | trigger (jobId : String)
  | fetchStatus (jobId : String)
  | fetchArtifact (jobId : String)
  deriving Repr, DecidableEq

/-- Terminal outcome of one poll session (`pollUntilFinished`).
`completed` and `stillProcessing` are the two values the source function
returns; `jobFailed` / `threw` are the exceptions it can raise
(`status = failed`, resp. a transport error from `getJobStatus`);
`outOfFuel` is the model artifact for a loop still running. -/
inductive PollOutcome where
  | completed
  | stillProcessing
  | jobFailed (message : String)
  | threw (message : String)
  | outOfFuel
  deriving Repr, DecidableEq

/-- Observable trace of one poll session: its outcome, the requests it
issued, the delays it slept (in order), and the snapshots it stored via
`setJobStatus` (in order). -/
structure PollResult where
  outcome : PollOutcome
  requests : List Request
  delays : List Int
  observed : List JobStatusResponse
  deriving Repr, DecidableEq

/-- `delayMs = Math.min(maxDelayMs, Math.round(delayMs * 1.2))` with
`maxDelayMs = 10000` (App.tsx line 131): `1.2 = 6 / 5` exactly, and since
`delay * 6 / 5` has fractional part in `{0, .2, .4, .6, .8}` the float
product never sits on a rounding boundary, so exact rational rounding
agrees with the JS double computation on every reachable delay. -/
def nextDelay (delay : Int) : Int := min 10000 (jsRound (6 * delay) 5)

/-- The delay value before the `n`-th update when the loop starts from
`delay` (`delayIter d 0 = d`). -/
def delayIter (d : Int) : Nat → Int
  | 0 => d
  | n + 1 => nextDelay (delayIter d n)

/-- The inter-poll delay sequence of one session: starts at 2000 ms
(App.tsx line 98) and applies `nextDelay` after every iteration that
remains running (line 131). -/
def delaySeq : Nat → Int := delayIter 2000

/-- The body of `pollUntilFinished`'s `while (true)` loop (App.tsx lines
101-132), fetch-first: iteration `k` reads `env k` (the `getJobStatus`
result together with the `Date.now()` value of that iteration), stores
the snapshot, classifies `completed` / `failed` / over-budget in that
order, and otherwise sleeps `delay` and continues with `nextDelay delay`.
`fuel` bounds how many further iterations the model unrolls; it is spent
only after the sleep, so even `fuel = 0` performs the first fetch and
classification. -/
def pollAux (id : String) (maxMs startedAt : Int)
    (env : Nat → Except String (JobStatusResponse × Int))
    (delay : Int) (k : Nat) (fuel : Nat) : PollResult :=
  match env k with
  | .error e => ⟨.threw e, [.fetchStatus id], [], []⟩
  | .ok (s, now) =>
    if s.status = "completed" then
      ⟨.completed, [.fetchStatus id], [], [s]⟩
    else if s.status = "failed" then
      ⟨.jobFailed (jsOrElse s.error_message "El procesamiento ha fallado."),
        [.fetchStatus id], [], [s]⟩
    else if maxMs < now - startedAt then
      ⟨.stillProcessing, [.fetchStatus id], [], [s]⟩
    else
      match fuel with
      | 0 => ⟨.outOfFuel, [.fetchStatus id], [delay], [s]⟩
      | fuel' + 1 =>
        let r := pollAux id maxMs startedAt env (nextDelay delay) (k + 1) fuel'
        ⟨r.outcome, .fetchStatus id :: r.requests, delay :: r.delays,
          s :: r.observed⟩

/-- A poll session with an explicit wall-clock budget: backoff starts at
2000 ms and the elapsed time is measured against the session's own
`startedAt`. -/
def pollUntilFinishedWith (maxMs : Int) (id : String) (startedAt : Int)
    (env : Nat → Except String (JobStatusResponse × Int))
    (fuel : Nat) : PollResult :=
  pollAux id maxMs startedAt env 2000 0 fuel

/-- `pollUntilFinished` (App.tsx lines 93-133): the budget is the local
constant `maxMs = 10 * 60 * 1000`. -/
def pollUntilFinished (id : String) (startedAt : Int)
    (env : Nat → Except String (JobStatusResponse × Int))
    (fuel : Nat) : PollResult :=
  pollUntilFinishedWith (10 * 60 * 1000) id startedAt env fuel

/-- Iteration `j` of the environment reports a job that is neither
completed nor failed, within the wall-clock budget. -/
def RunningAt (maxMs startedAt : Int)
    (env : Nat → Except String (JobStatusResponse × Int)) (j : Nat) : Prop :=
  ∃ s now, env j = .ok (s, now) ∧ s.status ≠ "completed" ∧
    s.status ≠ "failed" ∧ now - startedAt ≤ maxMs

/-- Shift every `Date.now()` reading of a status environment by `c`
milliseconds (the server responses are unchanged). -/
def shiftEnv (c : Int)
    (env : Nat → Except String (JobStatusResponse × Int)) :
    Nat → Except String (JobStatusResponse × Int) :=
  fun j =>
    match env j with
    | .error e => .error e
    | .ok (s, t) => .ok (s, t + c)

/-- The `Step` union type of `App.tsx` (lines 12-19). -/
inductive Step where
  | idle
  | uploading
  | starting
  | waiting
  | downloading
  | done
  | error
  deriving Repr, DecidableEq

/-- The React state of `App` that the claims observe: `step`, `jobId`,
the latest stored snapshot, and `error`.  The `message` strings and the
selected `file` handle are presentation data with no effect on control
flow and are not modelled. -/
structure AppState where
  step : Step
  jobId : Option String
  jobStatus : Option JobStatusResponse
  error : Option String
  deriving Repr, DecidableEq

/-- Fold the snapshots a poll session stored via `setJobStatus` into the
app state: the last one observed wins (snapshots replace, never merge). -/
def applyObserved (st : AppState) (obs : List JobStatusResponse) : AppState :=
  match obs.getLast? with
  | none => st
  | some s => { st with jobStatus := some s }

/-- Shared continuation of `handleSubmit` (lines 173-193) and
`handleContinueWaiting` (lines 237-253) after `pollUntilFinished`
returns or throws: on `completed` download the artifact and finish in
`done` (or `error` if the download throws); on `still_processing` go
back to `waiting`; a thrown error (job failure or transport) is caught
and lands in `error` with the exception's message.  `reqs0` are the
requests the caller already issued before polling. -/
def finishPoll (st : AppState) (id : String) (r : PollResult)
    (download : Except String Unit) (reqs0 : List Request) :
    AppState × List Request :=
  let st1 := applyObserved st r.observed
  let reqs := reqs0 ++ r.requests
  match r.outcome with
  | .completed =>
    match download with
    | .ok _ => ({ st1 with step := Step.done }, reqs ++ [.fetchArtifact id])
    | .error e =>
      ({ st1 with step := Step.error, error := some e },
        reqs ++ [.fetchArtifact id])
  | .stillProcessing => ({ st1 with step := Step.waiting }, reqs)
  | .jobFailed m => ({ st1 with step := Step.error, error := some m }, reqs)
  | .threw m => ({ st1 with step := Step.error, error := some m }, reqs)
  | .outOfFuel => ({ st1 with step := Step.waiting }, reqs)

/-- Everything the environment decides during one `handleSubmit` run:
the transport results of `uploadFile` and `processJob`, the status
responses and clock readings seen while polling, the session's
`Date.now()` start value, the loop fuel, and the `downloadJob` result. -/
structure RunEnv where
  uploadRes : Except String CreateJobResponse
  processRes : Except String JobStatusResponse
  statusEnv : Nat → Except String (JobStatusResponse × Int)
  startedAt : Int
  fuel : Nat
  downloadRes : Except String Unit

/-- `handleSubmit` (App.tsx lines 149-194): clear the error, require a
file, submit, remember the job id, trigger processing, poll, and hand
the result to the shared continuation.  A throw at any step is caught
and stored as the error. -/
def handleSubmit (st : AppState) (file : Option Unit) (env : RunEnv) :
    AppState × List Request :=
  let st1 := { st with error := none }
  match file with
  | none =>
    ({ st1 with step := Step.error, error := some "Selecciona un archivo PDF primero." }, [])
  | some _ =>
    match env.uploadRes with
    | .error e => ({ st1 with step := Step.error, error := some e }, [.submit])
    | .ok created =>
      let st2 := { st1 with jobId := some created.job_id }
      match env.processRes with
      | .error e =>
        ({ st2 with step := Step.error, error := some e },
          [.submit, .trigger created.job_id])
      | .ok _ =>
        finishPoll st2 created.job_id
          (pollUntilFinished created.job_id env.startedAt env.statusEnv env.fuel)
          env.downloadRes [.submit, .trigger created.job_id]

/-- `handleRefresh` (App.tsx lines 196-227): one `getJobStatus` outside
any poll session; download on `completed`, surface the error on
`failed`, otherwise stay `waiting`. -/
def handleRefresh (st : AppState)
    (fetchRes : Except String JobStatusResponse)
    (download : Except String Unit) : AppState × List Request :=
  match st.jobId with
  | none => (st, [])
  | some id =>
    let st1 := { st with error := none, step := Step.waiting }
    match fetchRes with
    | .error e =>
      ({ st1 with step := Step.error, error := some e }, [.fetchStatus id])
    | .ok s =>
      let st2 := { st1 with jobStatus := some s }
      if s.status = "completed" then
        match download with
        | .ok _ =>
          ({ st2 with step := Step.done }, [.fetchStatus id, .fetchArtifact id])
        | .error e =>
          ({ st2 with step := Step.error, error := some e },
            [.fetchStatus id, .fetchArtifact id])
      else if s.status = "failed" then
        ({ st2 with step := Step.error, error := some (jsOrElse s.error_message "Job fallido.") },
          [.fetchStatus id])
      else
        ({ st2 with step := Step.waiting }, [.fetchStatus id])

/-- `handleContinueWaiting` (App.tsx lines 229-254): a fresh poll
session for the stored job id, then the shared continuation. -/
def handleContinueWaiting (st : AppState) (startedAt : Int)
    (env : Nat → Except String (JobStatusResponse × Int)) (fuel : Nat)
    (download : Except String Unit) : AppState × List Request :=
  match st.jobId with
  | none => (st, [])
  | some id =>
    let st1 := { st with error := none, step := Step.waiting }
    finishPoll st1 id (pollUntilFinished id startedAt env fuel) download []

/-- An HTTP response as the `fetch` calls in `api.ts` observe it:
numeric status code and body text.  On a 2xx response the body is parsed
(`res.json()` / `res.blob()`); parsing is opaque here, so a successful
call returns the body itself. -/
structure HttpResponse where
  status : Nat
  body : String
  deriving Repr, DecidableEq

/-- `res.ok`: the status code is in the 2xx range (200-299). -/
def resOk (r : HttpResponse) : Bool :=
  decide (200 ≤ r.status) && decide (r.status ≤ 299)

/-- `uploadFile` (api.ts lines 29-44), applied to the response of
`POST /api/v1/jobs`. -/
def uploadFile (res : HttpResponse) : Except String String :=
  if resOk res then .ok res.body
  else .error ("Error creando job: " ++ toString res.status ++ " " ++ res.body)

/-- `processJob` (api.ts lines 46-57), applied to the response of
`POST /api/v1/jobs/{jobId}/process`. -/
def processJob (jobId : String) (res : HttpResponse) : Except String String :=
  if resOk res then .ok res.body
  else .error ("Error procesando job: " ++ toString res.status ++ " " ++ res.body)

/-- `getJobStatus` (api.ts lines 59-66), applied to the response of
`GET /api/v1/jobs/{jobId}`. -/
def getJobStatus (jobId : String) (res : HttpResponse) : Except String String :=
  if resOk res then .ok res.body
  else .error ("Error consultando job: " ++ toString res.status ++ " " ++ res.body)

/-- `downloadJob` (api.ts lines 68-75), applied to the response of
`GET /api/v1/jobs/{jobId}/download`. -/
def downloadJob (jobId : String) (res : HttpResponse) : Except String String :=
  if resOk res then .ok res.body
  else .error ("Error descargando resultado: " ++ toString res.status ++ " " ++ res.body)

/-- `clamp lo x hi = max lo (min x hi)`. -/
def clamp (lo x hi : Int) : Int := max lo (min x hi)

/-- Modelled from the claim wording for comparison with the source:
`round(100 * clamp(current, 0, total) / total)` clamped to `[0, 100]`,
with stages `export` and `completed` forced to 100. -/
def percentClaim (stage : Option String) (current total : Int) : Int :=
  if stage = some "export" ∨ stage = some "completed" then 100
  else clamp 0 (jsRound (100 * clamp 0 current total) total) 100

/-- Modelled from the amended claim wording for comparison with the
source: the stage-to-label mapping actually implemented, a total
function with a generic default branch, applied to the display counter
`current' = min(current, total)`. -/
def labelAmended (stage : Option String) (current total : Int) : String :=
  if stage = some "import" then s!"Importando {current} / {total}"
  else if stage = some "ocr" then s!"OCR {current} / {total}"
  else if stage = some "translate" then s!"Traduciendo {current} / {total}"
  else if stage = some "render" then s!"Renderizando {current} / {total}"
  else if stage = some "export" then "Exportando…"
  else if stage = some "completed" then s!"Completado {total} / {total}"
  else s!"Procesando {current} / {total}"

/-- Whether a request is an artifact download. -/
def isArtifact : Request → Bool
  | .fetchArtifact _ => true
  | _ => false

/-- Number of artifact downloads in a request list. -/
def artifactCount (l : List Request) : Nat := l.countP isArtifact

/-- Every request in the list is a read of job `id`: a status fetch or
an artifact download. -/
def ReadOnlyFor (id : String) (l : List Request) : Prop :=
  ∀ q ∈ l, q = Request.fetchStatus id ∨ q = Request.fetchArtifact id

/-- The list contains no submission and no trigger request. -/
def NoSubmitOrTrigger (l : List Request) : Prop :=
  ∀ q ∈ l, q ≠ Request.submit ∧ ∀ j, q ≠ Request.trigger j

theorem applyObserved_step (st : AppState) (obs : List JobStatusResponse) :
    (applyObserved st obs).step = st.step := by
  unfold applyObserved
  cases obs.getLast? <;> rfl

theorem applyObserved_jobId (st : AppState) (obs : List JobStatusResponse) :
    (applyObserved st obs).jobId = st.jobId := by
  unfold applyObserved
  cases obs.getLast? <;> rfl

theorem applyObserved_error (st : AppState) (obs : List JobStatusResponse) :
    (applyObserved st obs).error = st.error := by
  unfold applyObserved
  cases obs.getLast? <;> rfl

theorem pollAux_requests (id : String) (maxMs startedAt : Int)
    (env : Nat → Except String (JobStatusResponse × Int)) :
    ∀ (fuel k : Nat) (delay : Int) (q : Request),
      q ∈ (pollAux id maxMs startedAt env delay k fuel).requests →
      q = Request.fetchStatus id := by
  intro fuel
  induction fuel with
  | zero =>
    intro k delay q hq
    unfold pollAux at hq
    cases henv : env k with
    | error e => rw [henv] at hq; simp at hq; exact hq
    | ok p =>
      obtain ⟨s, now⟩ := p
      rw [henv] at hq
      simp only at hq
      split at hq
      · simp at hq; exact hq
      · split at hq
        · simp at hq; exact hq
        · split at hq
          · simp at hq; exact hq
          · simp at hq; exact hq
  | succ fuel ih =>
    intro k delay q hq
    unfold pollAux at hq
    cases henv : env k with
    | error e => rw [henv] at hq; simp at hq; exact hq
    | ok p =>
      obtain ⟨s, now⟩ := p
      rw [henv] at hq
      simp only at hq
      split at hq
      · simp at hq; exact hq
      · split at hq
        · simp at hq; exact hq
        · split at hq
          · simp at hq; exact hq
          · simp only [List.mem_cons] at hq
            rcases hq with hq | hq
            · exact hq
            · exact ih (k + 1) (nextDelay delay) q hq

theorem pollAux_requests_head (id : String) (maxMs startedAt : Int)
    (env : Nat → Except String (JobStatusResponse × Int))
    (delay : Int) (k fuel : Nat) :
    (pollAux id maxMs startedAt env delay k fuel).requests.head? =
      some (Request.fetchStatus id) := by
  unfold pollAux
  cases henv : env k with
  | error e => rfl
  | ok p =>
    obtain ⟨s, now⟩ := p
    simp only
    split
    · rfl
    · split
      · rfl
      · split
        · rfl
        · cases fuel <;> rfl

theorem pollAux_completed_observed (id : String) (maxMs startedAt : Int)
    (env : Nat → Except String (JobStatusResponse × Int)) :
    ∀ (fuel k : Nat) (delay : Int),
      (pollAux id maxMs startedAt env delay k fuel).outcome = .completed →
      ∃ s ∈ (pollAux id maxMs startedAt env delay k fuel).observed,
        s.status = "completed" := by
  intro fuel
  induction fuel with
  | zero =>
    intro k delay hq
    unfold pollAux at hq ⊢
    cases henv : env k with
    | error e => rw [henv] at hq; simp at hq
    | ok p =>
      obtain ⟨s, now⟩ := p
      rw [henv] at hq
      dsimp only at hq ⊢
      by_cases hs : s.status = "completed"
      · rw [if_pos hs]
        exact ⟨s, by simp, hs⟩
      · rw [if_neg hs] at hq ⊢
        by_cases hf : s.status = "failed"
        · rw [if_pos hf] at hq
          simp at hq
        · rw [if_neg hf] at hq ⊢
          by_cases ht : maxMs < now - startedAt
          · rw [if_pos ht] at hq
            simp at hq
          · rw [if_neg ht] at hq
            simp at hq
  | succ fuel ih =>
    intro k delay hq
    unfold pollAux at hq ⊢
    cases henv : env k with
    | error e => rw [henv] at hq; simp at hq
    | ok p =>
      obtain ⟨s, now⟩ := p
      rw [henv] at hq
      dsimp only at hq ⊢
      by_cases hs : s.status = "completed"
      · rw [if_pos hs]
        exact ⟨s, by simp, hs⟩
      · rw [if_neg hs] at hq ⊢
        by_cases hf : s.status = "failed"
        · rw [if_pos hf] at hq
          simp at hq
        · rw [if_neg hf] at hq ⊢
          by_cases ht : maxMs < now - startedAt
          · rw [if_pos ht] at hq
            simp at hq
          · rw [if_neg ht] at hq ⊢
            dsimp only at hq ⊢
            obtain ⟨s2, hs2, hc2⟩ := ih (k + 1) (nextDelay delay) hq
            refine ⟨s2, ?_, hc2⟩
            simp only [List.mem_cons]
            exact Or.inr hs2

theorem pollAux_head_delay (id : String) (maxMs startedAt : Int)
    (env : Nat → Except String (JobStatusResponse × Int))
    (delay : Int) (k fuel : Nat)
    (s : JobStatusResponse) (now : Int)
    (henv : env k = .ok (s, now))
    (hc : s.status ≠ "completed") (hf : s.status ≠ "failed")
    (ht : now - startedAt ≤ maxMs) :
    (pollAux id maxMs startedAt env delay k fuel).delays.head? = some delay := by
  unfold pollAux
  rw [henv]
  simp only
  rw [if_neg hc, if_neg hf, if_neg (by omega : ¬maxMs < now - startedAt)]
  cases fuel <;> rfl

theorem delayIter_shift (d : Int) :
    ∀ j, delayIter d (j + 1) = delayIter (nextDelay d) j := by
  intro j
  induction j with
  | zero => rfl
  | succ j ih => rw [delayIter, ih, delayIter]

theorem pollAux_delays_take (id : String) (maxMs startedAt : Int)
    (env : Nat → Except String (JobStatusResponse × Int)) :
    ∀ (n fuel k : Nat) (delay : Int), n ≤ fuel →
      (∀ j, j < n → RunningAt maxMs startedAt env (k + j)) →
      (pollAux id maxMs startedAt env delay k fuel).delays.take n =
        (List.range n).map (delayIter delay) := by
  intro n
  induction n with
  | zero => intro fuel k delay _ _; simp
  | succ n ih =>
    intro fuel k delay hnf hrun
    obtain ⟨s, now, henv, hc, hf, ht⟩ := hrun 0 (Nat.succ_pos n)
    rw [Nat.add_zero] at henv
    obtain ⟨fuel', rfl⟩ : ∃ f, fuel = f + 1 := by
      rcases fuel with _ | f
      · omega
      · exact ⟨f, rfl⟩
    unfold pollAux
    rw [henv]
    simp only
    rw [if_neg hc, if_neg hf, if_neg (by omega : ¬maxMs < now - startedAt)]
    simp only [List.take_succ_cons]
    have hrest := ih fuel' (k + 1) (nextDelay delay) (by omega)
      (fun j hj => by
        have := hrun (j + 1) (by omega)
        rwa [show k + (j + 1) = k + 1 + j by omega] at this)
    rw [hrest]
    rw [List.range_succ_eq_map]
    simp only [List.map_cons, List.map_map]
    refine congrArg₂ List.cons rfl ?_
    apply List.map_congr_left
    intro j _
    simp only [Function.comp_apply]
    exact (delayIter_shift delay j).symm

theorem pollAux_reach (id : String) (maxMs startedAt : Int)
    (env : Nat → Except String (JobStatusResponse × Int)) :
    ∀ (i k fuel : Nat) (delay : Int), i ≤ fuel →
      (∀ j, j < i → RunningAt maxMs startedAt env (k + j)) →
      (pollAux id maxMs startedAt env delay k fuel).outcome =
        (pollAux id maxMs startedAt env (delayIter delay i) (k + i)
          (fuel - i)).outcome := by
  intro i
  induction i with
  | zero => intro k fuel delay _ _; rfl
  | succ i ih =>
    intro k fuel delay hif hrun
    obtain ⟨s, now, henv, hc, hf, ht⟩ := hrun 0 (Nat.succ_pos i)
    rw [Nat.add_zero] at henv
    obtain ⟨fuel', rfl⟩ : ∃ f, fuel = f + 1 := by
      rcases fuel with _ | f
      · omega
      · exact ⟨f, rfl⟩
    conv_lhs => rw [pollAux]
    rw [henv]
    simp only
    rw [if_neg hc, if_neg hf, if_neg (by omega : ¬maxMs < now - startedAt)]
    simp only
    have step := ih (k + 1) fuel' (nextDelay delay) (by omega)
      (fun j hj => by
        have := hrun (j + 1) (by omega)
        rwa [show k + (j + 1) = k + 1 + j by omega] at this)
    rw [step, ← delayIter_shift,
      show k + 1 + i = k + (i + 1) by omega,
      show fuel' - i = fuel' + 1 - (i + 1) by omega]

theorem pollAux_shift (id : String) (maxMs startedAt c : Int)
    (env : Nat → Except String (JobStatusResponse × Int)) :
    ∀ (fuel k : Nat) (delay : Int),
      pollAux id maxMs (startedAt + c) (shiftEnv c env) delay k fuel =
        pollAux id maxMs startedAt env delay k fuel := by
  intro fuel
  induction fuel with
  | zero =>
    intro k delay
    unfold pollAux
    cases henv : env k with
    | error e => simp only [shiftEnv, henv]
    | ok p =>
      obtain ⟨s, now⟩ := p
      simp only [shiftEnv, henv]
      rw [show now + c - (startedAt + c) = now - startedAt by ring]
  | succ fuel ih =>
    intro k delay
    unfold pollAux
    cases henv : env k with
    | error e => simp only [shiftEnv, henv]
    | ok p =>
      obtain ⟨s, now⟩ := p
      simp only [shiftEnv, henv]
      rw [show now + c - (startedAt + c) = now - startedAt by ring,
        ih (k + 1) (nextDelay delay)]

theorem jsRound_zero (t : Int) (ht : 0 < t) : jsRound 0 t = 0 := by
  unfold jsRound
  rw [show 2 * 0 + t = t by ring]
  exact Int.ediv_eq_zero_of_lt (le_of_lt ht) (by omega)

theorem jsRound_neg_nonpos (cur t : Int) (ht : 0 < t) (hc : cur < 0) :
    jsRound (100 * cur) t ≤ 0 := by
  unfold jsRound
  have h2t : (0 : Int) < 2 * t := by omega
  by_cases ha : 0 ≤ 2 * (100 * cur) + t
  · have hlt : 2 * (100 * cur) + t < 2 * t := by omega
    rw [Int.ediv_eq_zero_of_lt ha hlt]
  · have hle : 2 * (100 * cur) + t ≤ 0 := by omega
    calc (2 * (100 * cur) + t) / (2 * t) ≤ 0 / (2 * t) :=
          Int.ediv_le_ediv h2t hle
      _ = 0 := Int.zero_ediv _

theorem percent_code_eq_claim (cur t : Int) (ht : 0 < t) :
    max 0 (min 100 (jsRound (100 * min cur t) t)) =
      clamp 0 (jsRound (100 * clamp 0 cur t) t) 100 := by
  unfold clamp
  by_cases hc : 0 ≤ cur
  · have h0 : (0 : Int) ≤ min cur t := le_min hc (le_of_lt ht)
    rw [max_eq_right h0, min_comm 100 (jsRound (100 * min cur t) t)]
  · push_neg at hc
    have hmin : min cur t = cur := min_eq_left (by omega)
    have hneg := jsRound_neg_nonpos cur t ht hc
    rw [hmin]
    rw [show max (0 : Int) cur = 0 from max_eq_left (by omega)]
    rw [mul_zero, jsRound_zero t ht]
    rw [min_eq_right (by omega : jsRound (100 * cur) t ≤ 100)]
    rw [max_eq_left hneg]
    simp

theorem readOnly_noSubmit (id : String) (l : List Request)
    (h : ReadOnlyFor id l) : NoSubmitOrTrigger l := by
  intro q hq
  rcases h q hq with rfl | rfl
  · exact ⟨by simp, fun j => by simp⟩
  · exact ⟨by simp, fun j => by simp⟩

/-- Concrete mid-run snapshot used by the witness theorems. -/
def sampleProcessing : JobStatusResponse :=
  ⟨"job-1", "processing", none, none, some 3, some 10, some "ocr"⟩

/-- Concrete snapshot with the stage the C7 counterexample inspects. -/
def sampleImport : JobStatusResponse :=
  ⟨"job-1", "processing", none, none, some 3, some 10, some "import"⟩

/-- Concrete snapshot with no progress signal. -/
def sampleNoTotal : JobStatusResponse :=
  ⟨"job-2", "processing", none, none, none, none, none⟩

/-- Concrete failed snapshot carrying an empty error message. -/
def failedEmptySnap : JobStatusResponse :=
  ⟨"job-1", "failed", some "", none, none, none, none⟩

/-- Concrete failed snapshot carrying a server message. -/
def failedOcrSnap : JobStatusResponse :=
  ⟨"job-1", "failed", some "OCR engine unavailable", none, none, none, none⟩

/-- Status environment that always reports `processing` at a clock
reading 700000 ms (past the 600000 ms budget when `startedAt = 0`). -/
def envTimeout : Nat → Except String (JobStatusResponse × Int) :=
  fun _ => .ok (sampleProcessing, 700000)

/-- Status environment that always reports `processing` at clock 0. -/
def envProcessing : Nat → Except String (JobStatusResponse × Int) :=
  fun _ => .ok (sampleProcessing, 0)

/-- Concrete submission response used by the witness theorems. -/
def sampleCreated : CreateJobResponse := ⟨"job-1", "uploaded", "comic", "pdf"⟩

/-- Concrete initial app state. -/
def idleState : AppState := ⟨Step.idle, none, none, none⟩

/-- Concrete app state holding a job id. -/
def waitingState : AppState := ⟨Step.waiting, some "job-1", none, none⟩

/-- Concrete `handleSubmit` environment in which every poll iteration
sees `processing` after the wall-clock budget has elapsed. -/
def runEnvTimeout : RunEnv :=
  ⟨.ok sampleCreated, .ok sampleProcessing, envTimeout, 0, 5, .ok ()⟩

/-- C2: within one poll session the inter-poll delay sequence starts at
2000 ms, is multiplied by 1.2 (rounded) and capped at 10000 ms after
every iteration that remains running; over 20 running iterations it is
non-decreasing and bounded by 10000 ms, and its first three values are
2000, 2400, 2880.  The first conjunct ties the sequence to the poll
loop: the delays a session actually sleeps are exactly `delaySeq`. -/
theorem c2_backoff_sequence :
    (∀ (id : String) (maxMs startedAt : Int)
        (env : Nat → Except String (JobStatusResponse × Int)) (fuel n : Nat),
        n ≤ fuel →
        (∀ j, j < n → RunningAt maxMs startedAt env j) →
        (pollUntilFinishedWith maxMs id startedAt env fuel).delays.take n =
          (List.range n).map delaySeq) ∧
    delaySeq 0 = 2000 ∧ delaySeq 1 = 2400 ∧ delaySeq 2 = 2880 ∧
    (∀ n, n < 20 → delaySeq n ≤ delaySeq (n + 1)) ∧
    (∀ n, n < 20 → delaySeq n ≤ 10000) := by
  refine ⟨?_, by decide, by decide, by decide, by decide, by decide⟩
  intro id maxMs startedAt env fuel n hnf hrun
  unfold pollUntilFinishedWith
  exact pollAux_delays_take id maxMs startedAt env n fuel 0 2000 hnf
    (fun j hj => by simpa using hrun j hj)

theorem c2_backoff_sequence_witness :
    (pollUntilFinishedWith 600000 "job-1" 0 envProcessing 3).delays.take 2 =
      [2000, 2400] ∧ delaySeq 0 ≤ delaySeq 1 := by
  have h := c2_backoff_sequence
  have h1 := h.1 "job-1" 600000 0 envProcessing 3 2 (by omega)
    (fun j hj => ⟨sampleProcessing, 0, rfl, by decide, by decide, by decide⟩)
  have h2 := h.2.2.2.2.1 0 (by omega)
  refine ⟨?_, h2⟩
  rw [h1]
  decide

/-- C3: for every snapshot with a positive total, the interpreter
yields a percent equal to `round(100 * clamp(current, 0, total) /
total)` clamped to `[0, 100]`, except that the stages `export` and
`completed` force percent to exactly 100. -/
theorem c3_percent_formula (js : JobStatusResponse) (t : Int)
    (htot : js.progress_total = some t) (hpos : 0 < t) :
    ∃ v, progressInfo (some js) = some v ∧
      v.percent = percentClaim js.progress_stage (js.progress_current.getD 0) t := by
  unfold progressInfo percentClaim
  dsimp only
  rw [htot]
  dsimp only
  rw [if_neg (by omega : ¬t ≤ 0)]
  have hpe := percent_code_eq_claim (js.progress_current.getD 0) t hpos
  by_cases h1 : js.progress_stage = some "import"
  · rw [if_pos h1, if_neg (by rw [h1]; decide)]
    exact ⟨_, rfl, hpe⟩
  · rw [if_neg h1]
    by_cases h2 : js.progress_stage = some "ocr"
    · rw [if_pos h2, if_neg (by rw [h2]; decide)]
      exact ⟨_, rfl, hpe⟩
    · rw [if_neg h2]
      by_cases h3 : js.progress_stage = some "translate"
      · rw [if_pos h3, if_neg (by rw [h3]; decide)]
        exact ⟨_, rfl, hpe⟩
      · rw [if_neg h3]
        by_cases h4 : js.progress_stage = some "render"
        · rw [if_pos h4, if_neg (by rw [h4]; decide)]
          exact ⟨_, rfl, hpe⟩
        · rw [if_neg h4]
          by_cases h5 : js.progress_stage = some "export"
          · rw [if_pos h5, if_pos (by rw [h5]; decide)]
            exact ⟨_, rfl, rfl⟩
          · rw [if_neg h5]
            by_cases h6 : js.progress_stage = some "completed"
            · rw [if_pos h6, if_pos (by rw [h6]; decide)]
              exact ⟨_, rfl, rfl⟩
            · rw [if_neg h6, if_neg (by simp [h5, h6])]
              exact ⟨_, rfl, hpe⟩

theorem c3_percent_formula_witness :
    ∃ v, progressInfo (some sampleProcessing) = some v ∧
      v.percent = percentClaim sampleProcessing.progress_stage
        (sampleProcessing.progress_current.getD 0) 10 :=
  c3_percent_formula sampleProcessing 10 rfl (by omega)

/-- C6: the interpreter returns `null` exactly when the total is absent
or non-positive, and returns a progress view whenever the total is
positive. -/
theorem c6_null_iff_no_total (js : JobStatusResponse) :
    (progressInfo (some js) = none ↔
      js.progress_total = none ∨ ∃ t, js.progress_total = some t ∧ t ≤ 0) ∧
    (∀ t, js.progress_total = some t → 0 < t →
      ∃ v, progressInfo (some js) = some v) := by
  have hsome : ∀ t, js.progress_total = some t → 0 < t →
      ∃ v, progressInfo (some js) = some v := by
    intro t htot hpos
    unfold progressInfo
    dsimp only
    rw [htot]
    dsimp only
    rw [if_neg (by omega : ¬t ≤ 0)]
    split_ifs <;> exact ⟨_, rfl⟩
  refine ⟨?_, hsome⟩
  cases htot : js.progress_total with
  | none =>
    constructor
    · intro _; exact Or.inl rfl
    · intro _
      unfold progressInfo
      dsimp only
      rw [htot]
  | some t =>
    by_cases hle : t ≤ 0
    · constructor
      · intro _; exact Or.inr ⟨t, rfl, hle⟩
      · intro _
        unfold progressInfo
        dsimp only
        rw [htot]
        dsimp only
        rw [if_pos hle]
    · constructor
      · intro hnone
        obtain ⟨v, hv⟩ := hsome t htot (by omega)
        rw [hv] at hnone
        exact absurd hnone (by simp)
      · intro h
        rcases h with h | ⟨t2, ht2, hle2⟩
        · exact absurd h (by simp)
        · injection ht2 with ht2
          omega

theorem c6_null_iff_no_total_witness :
    progressInfo (some sampleNoTotal) = none ∧
    ∃ v, progressInfo (some sampleProcessing) = some v :=
  ⟨(c6_null_iff_no_total sampleNoTotal).1.mpr (Or.inl rfl),
    (c6_null_iff_no_total sampleProcessing).2 10 rfl (by omega)⟩

/-- C7 counterexample: the source labels are Spanish with spaces around
the slash, so the stage `import` yields "Importando 3 / 10", not the
"Importing 3/10" the claim states. -/
theorem c7_label_counterexample :
    progressInfo (some sampleImport) = some ⟨"Importando 3 / 10", 30⟩ ∧
    "Importando 3 / 10" ≠ "Importing 3/10" := by
  constructor
  · decide
  · decide

/-- C7 amended: for every snapshot with positive total the label
mapping is total over all stage values, selecting the Spanish labels
`Importando / OCR / Traduciendo / Renderizando / Exportando… /
Completado` with the generic `Procesando` default, applied to the
display counter `min(current, total)`. -/
theorem c7_label_mapping_total (js : JobStatusResponse) (t : Int)
    (htot : js.progress_total = some t) (hpos : 0 < t) :
    ∃ v, progressInfo (some js) = some v ∧
      v.text = labelAmended js.progress_stage
        (min (js.progress_current.getD 0) t) t := by
  unfold progressInfo labelAmended
  dsimp only
  rw [htot]
  dsimp only
  rw [if_neg (by omega : ¬t ≤ 0)]
  split_ifs <;> exact ⟨_, rfl, rfl⟩

theorem c7_label_mapping_total_witness :
    ∃ v, progressInfo (some sampleImport) = some v ∧
      v.text = labelAmended sampleImport.progress_stage
        (min (sampleImport.progress_current.getD 0) 10) 10 :=
  c7_label_mapping_total sampleImport 10 rfl (by omega)

/-- C4 counterexample: a failed snapshot whose `error_message` is
present but empty is surfaced with the generic fallback, not with the
(empty) server message, because the source uses the falsy-coalescing
`||`.  So "message is exactly the snapshot's error_message when one is
present" fails at `error_message = some ""`. -/
theorem c4_failed_message_counterexample :
    failedEmptySnap.status = "failed" ∧
    failedEmptySnap.error_message = some "" ∧
    (pollUntilFinished "job-1" 0 (fun _ => .ok (failedEmptySnap, 0)) 0).outcome =
      .jobFailed "El procesamiento ha fallado." ∧
    (pollUntilFinished "job-1" 0 (fun _ => .ok (failedEmptySnap, 0)) 0).outcome ≠
      .jobFailed "" := by
  refine ⟨rfl, rfl, ?_, ?_⟩ <;> decide

/-- C4 amended: whenever a poll session reaches a snapshot with
`status = failed` (all earlier iterations still running and within
budget), the loop terminates with a `JobFailed` outcome whose message is
exactly the snapshot's `error_message` when that is present and
non-empty, and the fixed fallback "El procesamiento ha fallado." when it
is absent or empty. -/
theorem c4_failed_message (id : String) (startedAt : Int)
    (env : Nat → Except String (JobStatusResponse × Int)) (fuel i : Nat)
    (s : JobStatusResponse) (now : Int)
    (hrun : ∀ j, j < i → RunningAt (10 * 60 * 1000) startedAt env j)
    (henv : env i = .ok (s, now))
    (hs : s.status = "failed")
    (hif : i ≤ fuel) :
    (pollUntilFinished id startedAt env fuel).outcome =
      .jobFailed (jsOrElse s.error_message "El procesamiento ha fallado.") := by
  unfold pollUntilFinished pollUntilFinishedWith
  rw [pollAux_reach id (10 * 60 * 1000) startedAt env i 0 fuel 2000 hif
    (fun j hj => by simpa using hrun j hj)]
  rw [Nat.zero_add]
  unfold pollAux
  rw [henv]
  dsimp only
  rw [if_neg (by rw [hs]; decide), if_pos hs]

theorem c4_failed_message_witness :
    (pollUntilFinished "job-1" 0 (fun _ => .ok (failedOcrSnap, 0)) 0).outcome =
      .jobFailed "OCR engine unavailable" := by
  have h := c4_failed_message "job-1" 0 (fun _ => .ok (failedOcrSnap, 0)) 0 0
    failedOcrSnap 0 (fun j hj => absurd hj (Nat.not_lt_zero j)) rfl rfl
    (Nat.le_refl 0)
  exact h.trans (by decide)

/-- C8: each of the four transport operations returns the (parsed) body
without error on a 2xx response, and on any non-2xx response fails with
an error that carries the status code and the body text verbatim. -/
theorem c8_transport_errors (r : HttpResponse) (jid : String) :
    (resOk r = true →
      uploadFile r = .ok r.body ∧ processJob jid r = .ok r.body ∧
      getJobStatus jid r = .ok r.body ∧ downloadJob jid r = .ok r.body) ∧
    (resOk r = false →
      (∃ p, uploadFile r = .error (p ++ toString r.status ++ " " ++ r.body)) ∧
      (∃ p, processJob jid r = .error (p ++ toString r.status ++ " " ++ r.body)) ∧
      (∃ p, getJobStatus jid r = .error (p ++ toString r.status ++ " " ++ r.body)) ∧
      (∃ p, downloadJob jid r = .error (p ++ toString r.status ++ " " ++ r.body))) := by
  constructor
  · intro h
    unfold uploadFile processJob getJobStatus downloadJob
    rw [h]
    exact ⟨rfl, rfl, rfl, rfl⟩
  · intro h
    unfold uploadFile processJob getJobStatus downloadJob
    rw [h]
    exact ⟨⟨"Error creando job: ", rfl⟩, ⟨"Error procesando job: ", rfl⟩,
      ⟨"Error consultando job: ", rfl⟩, ⟨"Error descargando resultado: ", rfl⟩⟩

theorem c8_transport_errors_witness :
    resOk ⟨500, "boom"⟩ = false ∧
    (∃ p, uploadFile ⟨500, "boom"⟩ =
      .error (p ++ toString (500 : Nat) ++ " " ++ "boom")) ∧
    resOk ⟨200, "ok-body"⟩ = true ∧
    getJobStatus "job-1" ⟨200, "ok-body"⟩ = .ok "ok-body" := by
  refine ⟨by decide, ?_, by decide, ?_⟩
  · exact ((c8_transport_errors ⟨500, "boom"⟩ "job-1").2 (by decide)).1
  · exact ((c8_transport_errors ⟨200, "ok-body"⟩ "job-1").1 (by decide)).2.2.1

/-- C10: every poll session issues a `fetchStatus` before evaluating the
time budget, for any budget value (including one already exceeded at the
first iteration), and the `completed` / `failed` classifications take
priority over the timeout classification. -/
theorem c10_fetch_first_priority (id : String) (maxMs startedAt : Int)
    (env : Nat → Except String (JobStatusResponse × Int)) (fuel : Nat) :
    (pollUntilFinishedWith maxMs id startedAt env fuel).requests.head? =
      some (.fetchStatus id) ∧
    (∀ s now, env 0 = .ok (s, now) → maxMs < now - startedAt →
      (s.status = "completed" →
        (pollUntilFinishedWith maxMs id startedAt env fuel).outcome = .completed) ∧
      (s.status = "failed" →
        (pollUntilFinishedWith maxMs id startedAt env fuel).outcome =
          .jobFailed (jsOrElse s.error_message "El procesamiento ha fallado.")) ∧
      (s.status ≠ "completed" → s.status ≠ "failed" →
        (pollUntilFinishedWith maxMs id startedAt env fuel).outcome =
          .stillProcessing)) := by
  constructor
  · exact pollAux_requests_head id maxMs startedAt env 2000 0 fuel
  · intro s now henv hover
    unfold pollUntilFinishedWith pollAux
    rw [henv]
    dsimp only
    refine ⟨?_, ?_, ?_⟩
    · intro hc
      rw [if_pos hc]
    · intro hf
      rw [if_neg (by rw [hf]; decide), if_pos hf]
    · intro hc hf
      rw [if_neg hc, if_neg hf, if_pos hover]

theorem c10_fetch_first_priority_witness :
    (pollUntilFinishedWith 600000 "job-1" 0 envTimeout 5).requests.head? =
      some (.fetchStatus "job-1") ∧
    (pollUntilFinishedWith 600000 "job-1" 0 envTimeout 5).outcome =
      .stillProcessing := by
  have h := c10_fetch_first_priority "job-1" 600000 0 envTimeout 5
  exact ⟨h.1,
    ((h.2 sampleProcessing 700000 rfl (by decide)).2.2 (by decide) (by decide))⟩

/-- C5: every poll session is fresh: its backoff starts at 2000 ms and
its elapsed-time measurement is relative to its own start.  Two
consecutive sessions for the same job id each sleep 2000 ms first, and a
session's entire observable behaviour is invariant under shifting its
wall-clock readings and start time together — no state is carried across
sessions. -/
theorem c5_fresh_sessions (id : String) (s1 s2 c : Int)
    (env1 env2 : Nat → Except String (JobStatusResponse × Int)) (f1 f2 : Nat)
    (snap1 snap2 : JobStatusResponse) (t1 t2 : Int)
    (h1 : env1 0 = .ok (snap1, t1)) (hp1 : snap1.status = "processing")
    (hb1 : t1 - s1 ≤ 10 * 60 * 1000)
    (h2 : env2 0 = .ok (snap2, t2)) (hp2 : snap2.status = "processing")
    (hb2 : t2 - s2 ≤ 10 * 60 * 1000) :
    (pollUntilFinished id s1 env1 f1).delays.head? = some 2000 ∧
    (pollUntilFinished id s2 env2 f2).delays.head? = some 2000 ∧
    pollUntilFinished id (s2 + c) (shiftEnv c env2) f2 =
      pollUntilFinished id s2 env2 f2 := by
  refine ⟨?_, ?_, ?_⟩
  · exact pollAux_head_delay id (10 * 60 * 1000) s1 env1 2000 0 f1 snap1 t1 h1
      (by rw [hp1]; decide) (by rw [hp1]; decide) hb1
  · exact pollAux_head_delay id (10 * 60 * 1000) s2 env2 2000 0 f2 snap2 t2 h2
      (by rw [hp2]; decide) (by rw [hp2]; decide) hb2
  · unfold pollUntilFinished pollUntilFinishedWith
    exact pollAux_shift id (10 * 60 * 1000) s2 c env2 f2 0 2000

theorem c5_fresh_sessions_witness :
    (pollUntilFinished "job-1" 0 envProcessing 5).delays.head? = some 2000 ∧
    (pollUntilFinished "job-1" 100 envProcessing 5).delays.head? = some 2000 ∧
    pollUntilFinished "job-1" (100 + 7) (shiftEnv 7 envProcessing) 5 =
      pollUntilFinished "job-1" 100 envProcessing 5 :=
  c5_fresh_sessions "job-1" 0 100 7 envProcessing envProcessing 5 5
    sampleProcessing sampleProcessing 0 0 rfl rfl (by decide) rfl rfl (by decide)

/-- C1: when some poll iteration sees the wall-clock budget exceeded on
a snapshot that is neither completed nor failed (all earlier iterations
still running and within budget), the session ends in the timed-out
outcome `still_processing` without raising, and `handleSubmit` then
transitions the lifecycle state back to `waiting` with the job id still
set and no error stored. -/
theorem c1_timeout_returns_to_waiting (st : AppState) (env : RunEnv)
    (created : CreateJobResponse) (ps : JobStatusResponse)
    (i : Nat) (s : JobStatusResponse) (now : Int)
    (hup : env.uploadRes = .ok created)
    (hpr : env.processRes = .ok ps)
    (hrun : ∀ j, j < i → RunningAt (10 * 60 * 1000) env.startedAt env.statusEnv j)
    (henv : env.statusEnv i = .ok (s, now))
    (hc : s.status ≠ "completed") (hf : s.status ≠ "failed")
    (hover : 10 * 60 * 1000 < now - env.startedAt)
    (hif : i ≤ env.fuel) :
    (pollUntilFinished created.job_id env.startedAt env.statusEnv
      env.fuel).outcome = .stillProcessing ∧
    (handleSubmit st (some ()) env).1.step = Step.waiting ∧
    (handleSubmit st (some ()) env).1.jobId = some created.job_id ∧
    (handleSubmit st (some ()) env).1.error = none := by
  have hout : (pollUntilFinished created.job_id env.startedAt env.statusEnv
      env.fuel).outcome = .stillProcessing := by
    unfold pollUntilFinished pollUntilFinishedWith
    rw [pollAux_reach created.job_id (10 * 60 * 1000) env.startedAt
      env.statusEnv i 0 env.fuel 2000 hif (fun j hj => by simpa using hrun j hj)]
    rw [Nat.zero_add]
    unfold pollAux
    rw [henv]
    dsimp only
    rw [if_neg hc, if_neg hf, if_pos hover]
  refine ⟨hout, ?_⟩
  unfold handleSubmit
  rw [hup]
  dsimp only
  rw [hpr]
  dsimp only
  cases hres : pollUntilFinished created.job_id env.startedAt env.statusEnv
      env.fuel with
  | mk oc rq dls obs =>
    rw [hres] at hout
    dsimp only at hout
    subst hout
    unfold finishPoll
    dsimp only
    exact ⟨rfl, (applyObserved_jobId _ obs).trans rfl,
      (applyObserved_error _ obs).trans rfl⟩

theorem c1_timeout_returns_to_waiting_witness :
    (pollUntilFinished sampleCreated.job_id runEnvTimeout.startedAt
      runEnvTimeout.statusEnv runEnvTimeout.fuel).outcome = .stillProcessing ∧
    (handleSubmit idleState (some ()) runEnvTimeout).1.step = Step.waiting ∧
    (handleSubmit idleState (some ()) runEnvTimeout).1.jobId =
      some sampleCreated.job_id ∧
    (handleSubmit idleState (some ()) runEnvTimeout).1.error = none :=
  c1_timeout_returns_to_waiting idleState runEnvTimeout sampleCreated
    sampleProcessing 0 sampleProcessing 700000 rfl rfl
    (fun j hj => absurd hj (Nat.not_lt_zero j)) rfl (by decide) (by decide)
    (by decide) (Nat.zero_le _)

theorem handleRefresh_requests (st : AppState) (id : String)
    (hid : st.jobId = some id)
    (fetchRes : Except String JobStatusResponse)
    (dl1 : Except String Unit) :
    (handleRefresh st fetchRes dl1).2 = [.fetchStatus id] ∨
    ((handleRefresh st fetchRes dl1).2 = [.fetchStatus id, .fetchArtifact id] ∧
      ∃ s, fetchRes = .ok s ∧ s.status = "completed") := by
  unfold handleRefresh
  rw [hid]
  dsimp only
  cases fetchRes with
  | error e => exact Or.inl rfl
  | ok s =>
    dsimp only
    by_cases hcs : s.status = "completed"
    · rw [if_pos hcs]
      cases dl1 with
      | error e => exact Or.inr ⟨rfl, s, rfl, hcs⟩
      | ok u => exact Or.inr ⟨rfl, s, rfl, hcs⟩
    · rw [if_neg hcs]
      by_cases hfs : s.status = "failed"
      · rw [if_pos hfs]
        exact Or.inl rfl
      · rw [if_neg hfs]
        exact Or.inl rfl

theorem handleContinueWaiting_requests (st : AppState) (id : String)
    (hid : st.jobId = some id) (startedAt : Int)
    (env : Nat → Except String (JobStatusResponse × Int)) (fuel : Nat)
    (dl2 : Except String Unit) :
    (handleContinueWaiting st startedAt env fuel dl2).2 =
      (pollUntilFinished id startedAt env fuel).requests ∨
    ((handleContinueWaiting st startedAt env fuel dl2).2 =
      (pollUntilFinished id startedAt env fuel).requests ++ [.fetchArtifact id] ∧
      (pollUntilFinished id startedAt env fuel).outcome = .completed) := by
  unfold handleContinueWaiting
  rw [hid]
  dsimp only
  cases hres : pollUntilFinished id startedAt env fuel with
  | mk oc rq dls obs =>
    unfold finishPoll
    dsimp only
    cases oc with
    | completed =>
      cases dl2 with
      | error e => exact Or.inr ⟨by simp, rfl⟩
      | ok u => exact Or.inr ⟨by simp, rfl⟩
    | stillProcessing => exact Or.inl (by simp)
    | jobFailed m => exact Or.inl (by simp)
    | threw m => exact Or.inl (by simp)
    | outOfFuel => exact Or.inl (by simp)

/-- C9: for a stored job id, the resumable entry points `handleRefresh`
and `handleContinueWaiting` issue only status reads plus at most one
artifact download, the download happening only after observing a
`completed` status; in particular neither entry point ever issues a
submit or a trigger request. -/
theorem c9_entry_points_read_only (st : AppState) (id : String)
    (hid : st.jobId = some id)
    (fetchRes : Except String JobStatusResponse) (dl1 dl2 : Except String Unit)
    (startedAt : Int) (env : Nat → Except String (JobStatusResponse × Int))
    (fuel : Nat) :
    ReadOnlyFor id (handleRefresh st fetchRes dl1).2 ∧
    NoSubmitOrTrigger (handleRefresh st fetchRes dl1).2 ∧
    artifactCount (handleRefresh st fetchRes dl1).2 ≤ 1 ∧
    (1 ≤ artifactCount (handleRefresh st fetchRes dl1).2 →
      ∃ s, fetchRes = .ok s ∧ s.status = "completed") ∧
    ReadOnlyFor id (handleContinueWaiting st startedAt env fuel dl2).2 ∧
    NoSubmitOrTrigger (handleContinueWaiting st startedAt env fuel dl2).2 ∧
    artifactCount (handleContinueWaiting st startedAt env fuel dl2).2 ≤ 1 ∧
    (1 ≤ artifactCount (handleContinueWaiting st startedAt env fuel dl2).2 →
      ∃ s, s ∈ (pollUntilFinished id startedAt env fuel).observed ∧
        s.status = "completed") := by
  have hpollmem : ∀ q ∈ (pollUntilFinished id startedAt env fuel).requests,
      q = Request.fetchStatus id := by
    intro q hq
    exact pollAux_requests id (10 * 60 * 1000) startedAt env fuel 0 2000 q hq
  have hpollcount : artifactCount (pollUntilFinished id startedAt env fuel).requests = 0 := by
    unfold artifactCount
    exact List.countP_eq_zero.mpr fun a ha => by
      rw [hpollmem a ha]; simp [isArtifact]
  have hrefresh := handleRefresh_requests st id hid fetchRes dl1
  have hcontinue := handleContinueWaiting_requests st id hid startedAt env fuel dl2
  have hR : ReadOnlyFor id (handleRefresh st fetchRes dl1).2 ∧
      artifactCount (handleRefresh st fetchRes dl1).2 ≤ 1 ∧
      (1 ≤ artifactCount (handleRefresh st fetchRes dl1).2 →
        ∃ s, fetchRes = .ok s ∧ s.status = "completed") := by
    rcases hrefresh with h | ⟨h, s, hs, hc⟩
    · rw [h]
      refine ⟨?_, ?_, ?_⟩
      · intro q hq
        simp only [List.mem_singleton] at hq
        exact Or.inl hq
      · simp [artifactCount, isArtifact]
      · intro hcnt
        rw [show artifactCount [Request.fetchStatus id] = 0 by
          simp [artifactCount, isArtifact]] at hcnt
        omega
    · rw [h]
      refine ⟨?_, ?_, fun _ => ⟨s, hs, hc⟩⟩
      · intro q hq
        simp only [List.mem_cons, List.mem_singleton] at hq
        rcases hq with rfl | rfl | h2
        · exact Or.inl rfl
        · exact Or.inr rfl
        · exact absurd h2 (by simp)
      · simp [artifactCount, isArtifact]
  have hC : ReadOnlyFor id (handleContinueWaiting st startedAt env fuel dl2).2 ∧
      artifactCount (handleContinueWaiting st startedAt env fuel dl2).2 ≤ 1 ∧
      (1 ≤ artifactCount (handleContinueWaiting st startedAt env fuel dl2).2 →
        ∃ s, s ∈ (pollUntilFinished id startedAt env fuel).observed ∧
          s.status = "completed") := by
    rcases hcontinue with h | ⟨h, hoc⟩
    · rw [h]
      refine ⟨?_, ?_, ?_⟩
      · intro q hq
        exact Or.inl (hpollmem q hq)
      · rw [hpollcount]
        omega
      · intro hcnt
        rw [hpollcount] at hcnt
        omega
    · rw [h]
      refine ⟨?_, ?_, ?_⟩
      · intro q hq
        rw [List.mem_append] at hq
        rcases hq with hq | hq
        · exact Or.inl (hpollmem q hq)
        · simp only [List.mem_singleton] at hq
          exact Or.inr hq
      · unfold artifactCount
        rw [List.countP_append]
        have := hpollcount
        unfold artifactCount at this
        rw [this]
        simp [isArtifact]
      · intro _
        exact pollAux_completed_observed id (10 * 60 * 1000) startedAt env
          fuel 0 2000 hoc
  exact ⟨hR.1, readOnly_noSubmit id _ hR.1, hR.2.1, hR.2.2, hC.1,
    readOnly_noSubmit id _ hC.1, hC.2.1, hC.2.2⟩

theorem c9_entry_points_read_only_witness :
    ReadOnlyFor "job-1" (handleRefresh waitingState (.ok sampleProcessing) (.ok ())).2 ∧
    artifactCount (handleContinueWaiting waitingState 0 envTimeout 5 (.ok ())).2 ≤ 1 := by
  have h := c9_entry_points_read_only waitingState "job-1" rfl
    (.ok sampleProcessing) (.ok ()) (.ok ()) 0 envTimeout 5
  exact ⟨h.1, h.2.2.2.2.2.2.1⟩

end InkV1
